import Mathlib

/-!
Shallow embedding of the zhibo-class live-streaming session service
(`src/main.go`).  The relational table `live_sessions` is modelled as a
list of rows together with the auto-increment counter; every SQL
statement of the Go source becomes an explicit function on this store.
Clock reads (`time.Now()`) are passed in as explicit arguments.
-/

namespace Zhibo

/-- The static backend configuration (`Config.LivegoURL` is the only field
the lifecycle code reads). -/
structure Config where
  livegoURL : String
deriving DecidableEq

/-- One row of the `live_sessions` table.  `status` is the raw string
column; `startTime`/`endTime` model the nullable timestamp columns. -/
structure Session where
  id : Nat
  courseId : Int
  streamKey : String
  status : String
  startTime : Option Nat
  endTime : Option Nat
  createdAt : Nat
deriving DecidableEq

/-- The `live_sessions` table plus its auto-increment counter. -/
structure Store where
  rows : List Session
  nextId : Nat
deriving DecidableEq

/-- Well-formedness the database guarantees: the primary key is unique and
the auto-increment counter is above every existing id. -/
def Store.wf (st : Store) : Prop :=
  (∀ s ∈ st.rows, s.id < st.nextId) ∧
  st.rows.Pairwise (fun a b => a.id ≠ b.id)

/-- `SELECT ... FROM live_sessions WHERE id = ?` (point lookup). -/
def findById (st : Store) (id : Nat) : Option Session :=
  st.rows.find? (fun s => s.id == id)

/-- `getPlayURLs`: the derived playback endpoint map, a pure function of
the stream key and the static configuration (src/main.go:555-561). -/
def getPlayURLs (cfg : Config) (streamKey : String) : List (String × String) :=
  [("rtmp", "rtmp://" ++ cfg.livegoURL ++ "/live/" ++ streamKey),
   ("flv",  "http://" ++ cfg.livegoURL ++ ":7001/live/" ++ streamKey ++ ".flv"),
   ("hls",  "http://" ++ cfg.livegoURL ++ ":7002/live/" ++ streamKey ++ ".m3u8")]

/-- The character set used by `generateRandomString` (src/main.go:530). -/
def charset : String :=
  "abcdefghijklmnopqrstuvwxyzABCDEFGHIJKLMNOPQRSTUVWXYZ0123456789"

/-- One loop iteration of `generateRandomString`: `charset[nano % len(charset)]`. -/
def charsetChar (nano : Nat) : Char :=
  charset.toList.getD (nano % charset.toList.length) 'a'

/-- `generateRandomString` (src/main.go:529-536).  Each character consumes
one `time.Now().UnixNano()` clock reading, passed in as the list `nanos`
(one entry per iteration of the Go loop). -/
def generateRandomString (nanos : List Nat) : String :=
  String.mk (nanos.map charsetChar)

/-- `generateStreamKey` (src/main.go:523-526):
`fmt.Sprintf("live_%d_%s", time.Now().Unix(), generateRandomString(10))`,
with the observed clock readings passed in explicitly. -/
def generateStreamKey (sec : Nat) (nanos : List Nat) : String :=
  "live_" ++ Nat.repr sec ++ "_" ++ generateRandomString nanos

/-- The session body a handler returns to the caller (the JSON view of the
Go `LiveSession` struct; `playUrls = []` models the omitted/nil map). -/
structure LiveSessionView where
  id : Nat
  courseId : Int
  streamKey : String
  status : String
  startTime : Option Nat
  endTime : Option Nat
  createdAt : Nat
  playUrls : List (String × String)
deriving DecidableEq

/-- Outcome of `createLiveSession`: success with the response body, or the
500 reported when the Livego provisioning call fails. -/
inductive CreateOutcome where
  | created (s : LiveSessionView)
  | provisionFailed
deriving DecidableEq

/-- `DELETE FROM live_sessions WHERE id = ?` (src/main.go:506). -/
def deleteById (id : Nat) (st : Store) : Store :=
  { st with rows := st.rows.filter (fun s => s.id ≠ id) }

/-- `createLiveSession` (src/main.go:472-520): generate the stream key from
the clock, insert the `pending` row, provision on Livego (`provisionOk` is
the outcome of the outbound HTTP call); on failure delete the row;
on success return the full body, `PlayURLs` included. -/
def createLiveSession (cfg : Config) (courseId : Int) (sec : Nat)
    (nanos : List Nat) (provisionOk : Bool) (dbNow respNow : Nat)
    (st : Store) : Store × CreateOutcome :=
  let streamKey := generateStreamKey sec nanos
  let id := st.nextId
  let inserted : Store :=
    { rows := st.rows ++
        [{ id := id, courseId := courseId, streamKey := streamKey,
           status := "pending", startTime := none, endTime := none,
           createdAt := dbNow }],
      nextId := st.nextId + 1 }
  if provisionOk then
    (inserted,
     CreateOutcome.created
       { id := id, courseId := courseId, streamKey := streamKey,
         status := "pending", startTime := none, endTime := none,
         createdAt := respNow, playUrls := getPlayURLs cfg streamKey })
  else
    (deleteById id inserted, CreateOutcome.provisionFailed)

/-- Outcome of `getLiveSession`: 200 with the body, or 404. -/
inductive GetOutcome where
  | ok (s : LiveSessionView)
  | notFound
deriving DecidableEq

/-- `getLiveSession` (src/main.go:564-597): point lookup; the playback-URL
map is attached only when `status == "live"` (nil/omitted otherwise). -/
def getLiveSession (cfg : Config) (id : Nat) (st : Store) : GetOutcome :=
  match findById st id with
  | none => GetOutcome.notFound
  | some s =>
      GetOutcome.ok
        { id := s.id, courseId := s.courseId, streamKey := s.streamKey,
          status := s.status, startTime := s.startTime, endTime := s.endTime,
          createdAt := s.createdAt,
          playUrls := if s.status = "live" then getPlayURLs cfg s.streamKey else [] }

/-- Outcome of the start/end handlers: 200, or the single 400 reported when
the guarded UPDATE matched zero rows (the handler cannot tell "no such id"
from "wrong status"). -/
inductive TransitionOutcome where
  | ok
  | clientError
deriving DecidableEq

/-- One row under `UPDATE ... SET ... WHERE p`: mutated when the WHERE
clause matches, untouched otherwise. -/
def sqlUpdateRow (p : Session → Bool) (f : Session → Session) (s : Session) : Session :=
  if p s then f s else s

/-- `UPDATE live_sessions SET f WHERE p`, returning the new table and the
affected-row count.  The precondition test and the mutation are one atomic
statement, exactly as in the SQL. -/
def updateWhere (p : Session → Bool) (f : Session → Session) (st : Store) :
    Store × Nat :=
  ({ st with rows := st.rows.map (sqlUpdateRow p f) }, st.rows.countP p)

/-- WHERE clause of the start handler: `id = ? AND status = 'pending'`. -/
def startPred (id : Nat) (s : Session) : Bool :=
  s.id == id && s.status == "pending"

/-- SET clause of the start transition: `status='live', start_time=NOW()`. -/
def startUpd (now : Nat) (s : Session) : Session :=
  { s with status := "live", startTime := some now }

/-- WHERE clause of the end handler: `id = ? AND status = 'live'`. -/
def endPred (id : Nat) (s : Session) : Bool :=
  s.id == id && s.status == "live"

/-- SET clause of the end transition: `status='ended', end_time=NOW()`. -/
def endUpd (now : Nat) (s : Session) : Session :=
  { s with status := "ended", endTime := some now }

/-- WHERE clause of the callback's start branch:
`stream_key = ? AND status = 'pending'`. -/
def cbStartPred (k : String) (s : Session) : Bool :=
  s.streamKey == k && s.status == "pending"

/-- WHERE clause of the callback's stop branch:
`stream_key = ? AND status = 'live'`. -/
def cbStopPred (k : String) (s : Session) : Bool :=
  s.streamKey == k && s.status == "live"

/-- The common shape of the start/end handlers: run the guarded UPDATE,
then report 400 when it matched zero rows and 200 otherwise. -/
def guardedTransition (p : Session → Bool) (f : Session → Session)
    (st : Store) : Store × TransitionOutcome :=
  let r := updateWhere p f st
  (r.1, if r.2 = 0 then TransitionOutcome.clientError else TransitionOutcome.ok)

/-- `startLiveSession` (src/main.go:600-627):
`UPDATE ... SET status='live', start_time=NOW() WHERE id=? AND status='pending'`,
then branch on the affected-row count. -/
def startLiveSession (id : Nat) (now : Nat) (st : Store) :
    Store × TransitionOutcome :=
  guardedTransition (startPred id) (startUpd now) st

/-- `endLiveSession` (src/main.go:630-657):
`UPDATE ... SET status='ended', end_time=NOW() WHERE id=? AND status='live'`. -/
def endLiveSession (id : Nat) (now : Nat) (st : Store) :
    Store × TransitionOutcome :=
  guardedTransition (endPred id) (endUpd now) st

/-- The store mutation performed by the Livego callback once the stream key
is extracted (src/main.go:682-694): the same guarded transitions as
start/end, keyed by `stream_key`; any other event string does nothing. -/
def applyExternalStatus (event : String) (streamKey : String) (now : Nat)
    (st : Store) : Store :=
  if event = "start" then
    (updateWhere (cbStartPred streamKey) (startUpd now) st).1
  else if event = "stop" then
    (updateWhere (cbStopPred streamKey) (endUpd now) st).1
  else st

/-- Splitting a character list at every occurrence of the separator, with
the semantics of Go's `strings.Split` for a one-character separator (the
empty input yields one empty field; a separator at either edge yields an
empty field there). -/
def splitOnChar (c : Char) : List Char → List (List Char)
  | [] => [[]]
  | x :: xs =>
      let rest := splitOnChar c xs
      if x = c then [] :: rest
      else
        match rest with
        | [] => [[x]]
        | g :: gs => (x :: g) :: gs

/-- `strings.Split(path, "/")` (the separator used at src/main.go:673 is
the single character "/"). -/
def stringSplit (path : String) (c : Char) : List String :=
  (splitOnChar c path.toList).map (fun g => String.mk g)

/-- Outcome of the callback handler: 400 for a malformed path, otherwise
the unconditional 200 acknowledgement. -/
inductive CallbackOutcome where
  | badRequest
  | ack
deriving DecidableEq

/-- `handleLiveStatusCallback` (src/main.go:660-697): split the stream path
on "/", require at least three segments, take `parts[2]` as the stream key,
apply the guarded update, and acknowledge regardless of its effect. -/
def handleLiveStatusCallback (streamPath event : String) (now : Nat)
    (st : Store) : Store × CallbackOutcome :=
  let parts := stringSplit streamPath '/'
  if parts.length < 3 then (st, CallbackOutcome.badRequest)
  else (applyExternalStatus event (parts.getD 2 "") now st, CallbackOutcome.ack)

/-- One lifecycle operation, for reasoning about arbitrary operation
sequences.  Each constructor carries the clock readings (and, for create,
the provisioning outcome) the corresponding handler observes. -/
inductive Op where
  | create (courseId : Int) (sec : Nat) (nanos : List Nat)
      (provisionOk : Bool) (dbNow respNow : Nat)
  | start (id : Nat) (now : Nat)
  | finish (id : Nat) (now : Nat)
  | callback (streamPath event : String) (now : Nat)

/-- The store effect of one lifecycle operation (the handler's response is
discarded). -/
def applyOp (cfg : Config) (op : Op) (st : Store) : Store :=
  match op with
  | Op.create courseId sec nanos provisionOk dbNow respNow =>
      (createLiveSession cfg courseId sec nanos provisionOk dbNow respNow st).1
  | Op.start id now => (startLiveSession id now st).1
  | Op.finish id now => (endLiveSession id now st).1
  | Op.callback streamPath event now =>
      (handleLiveStatusCallback streamPath event now st).1

/-- The store effect of a sequence of lifecycle operations. -/
def applyOps (cfg : Config) (ops : List Op) (st : Store) : Store :=
  match ops with
  | [] => st
  | op :: rest => applyOps cfg rest (applyOp cfg op st)

/-- Rank of a status along the lifecycle order `pending → live → ended`. -/
def statusRank (status : String) : Nat :=
  if status = "pending" then 0 else if status = "live" then 1 else 2

/-- The quiz `Question` as submitted/returned over HTTP (`Options` is the
structured list). -/
structure Question where
  id : Nat
  courseId : Int
  qtype : String
  content : String
  options : List String
  answer : String
deriving DecidableEq

/-- One row of the `questions` table: the `options` column stores a single
string. -/
structure QuestionRow where
  id : Nat
  courseId : Int
  qtype : String
  content : String
  options : String
  answer : String
deriving DecidableEq

/-- The `questions` table plus its auto-increment counter. -/
structure QuestionStore where
  rows : List QuestionRow
  nextId : Nat
deriving DecidableEq

/-- The serialization `createQuestion` applies to the options list before
storing it: `strings.Join(question.Options, ",")` (src/main.go:711). -/
def serializeOptions (options : List String) : String :=
  String.intercalate "," options

/-- `createQuestion` (src/main.go:700-727): insert the row (options joined
with a comma) and return the submitted question with its new id. -/
def createQuestion (q : Question) (st : QuestionStore) :
    QuestionStore × Question :=
  let row : QuestionRow :=
    { id := st.nextId, courseId := q.courseId, qtype := q.qtype,
      content := q.content, options := serializeOptions q.options,
      answer := q.answer }
  ({ rows := st.rows ++ [row], nextId := st.nextId + 1 },
   { q with id := st.nextId })

/-- The lookup `pushQuestion` performs (src/main.go:736-747):
`SELECT ... FROM questions WHERE id = ? AND course_id = ?`, returning the
stored row (whose `options` field is the joined string). -/
def pushQuestion (courseId : Int) (questionId : Nat) (st : QuestionStore) :
    Option QuestionRow :=
  st.rows.find? (fun r => r.id == questionId && r.courseId == courseId)

/-! ### Helper lemmas about the store operations -/

theorem mem_unique_id {l : List Session}
    (h : l.Pairwise (fun a b => a.id ≠ b.id)) :
    ∀ {a b : Session}, a ∈ l → b ∈ l → a.id = b.id → a = b := by
  induction l with
  | nil => intro a b ha _ _; cases ha
  | cons x xs ih =>
      intro a b ha hb hid
      have hx := (List.pairwise_cons.mp h).1
      have hxs := (List.pairwise_cons.mp h).2
      cases List.mem_cons.mp ha with
      | inl ha1 =>
          cases List.mem_cons.mp hb with
          | inl hb1 => rw [ha1, hb1]
          | inr hb1 =>
              rw [ha1] at hid
              exact absurd hid (hx b hb1)
      | inr ha1 =>
          cases List.mem_cons.mp hb with
          | inl hb1 =>
              rw [hb1] at hid
              exact absurd hid.symm (hx a ha1)
          | inr hb1 => exact ih hxs ha1 hb1 hid

theorem countP_zero_iff {l : List Session} {p : Session → Bool} :
    l.countP p = 0 ↔ ∀ a ∈ l, ¬ p a := by
  constructor
  · intro h a ha hpa
    have hpos : 0 < l.countP p := List.countP_pos_iff.mpr ⟨a, ha, hpa⟩
    omega
  · intro h
    by_contra hne
    rcases List.countP_pos_iff.mp (Nat.pos_of_ne_zero hne) with ⟨a, ha, hpa⟩
    exact h a ha hpa

theorem map_sqlUpdateRow_of_countP_zero {l : List Session}
    {p : Session → Bool} {f : Session → Session}
    (h : l.countP p = 0) : l.map (sqlUpdateRow p f) = l := by
  have h' := countP_zero_iff.mp h
  have : l.map (sqlUpdateRow p f) = l.map id := by
    apply List.map_congr_left
    intro a ha
    simp [sqlUpdateRow, h' a ha]
  rw [this, List.map_id]

theorem sqlUpdateRow_id {p : Session → Bool} {f : Session → Session}
    (hf : ∀ s, (f s).id = s.id) (s : Session) :
    (sqlUpdateRow p f s).id = s.id := by
  unfold sqlUpdateRow
  by_cases hp : p s
  · rw [if_pos hp]; exact hf s
  · rw [if_neg hp]

theorem find?_beqid_map {g : Session → Session}
    (hg : ∀ s, (g s).id = s.id) (l : List Session) (id : Nat) :
    (l.map g).find? (fun s => s.id == id) =
      (l.find? (fun s => s.id == id)).map g := by
  induction l with
  | nil => rfl
  | cons x xs ih =>
      by_cases hx : x.id = id
      · have h1 : (x.id == id) = true := beq_iff_eq.mpr hx
        have h2 : ((g x).id == id) = true := by rw [hg]; exact h1
        rw [List.map_cons,
          List.find?_cons_of_pos (p := fun s : Session => s.id == id) _ h2,
          List.find?_cons_of_pos (p := fun s : Session => s.id == id) _ h1,
          Option.map_some']
      · have h1 : ¬ ((x.id == id) = true) := by simp [hx]
        have h2 : ¬ (((g x).id == id) = true) := by rw [hg]; exact h1
        rw [List.map_cons,
          List.find?_cons_of_neg (p := fun s : Session => s.id == id) _ h2,
          List.find?_cons_of_neg (p := fun s : Session => s.id == id) _ h1, ih]

theorem findById_eq_some_of_mem {st : Store} (h : st.wf) {s : Session}
    (hs : s ∈ st.rows) {id : Nat} (hid : s.id = id) :
    findById st id = some s := by
  have hex : ∃ x, x ∈ st.rows ∧ (x.id == id) = true :=
    ⟨s, hs, beq_iff_eq.mpr hid⟩
  rcases Option.isSome_iff_exists.mp (List.find?_isSome.mpr hex) with ⟨a, ha⟩
  have hpa' := List.find?_some (p := fun s : Session => s.id == id) ha
  have hpa := beq_iff_eq.mp hpa'
  have hma := List.mem_of_find?_eq_some ha
  have heq : a = s := mem_unique_id h.2 hma hs (by rw [hpa, hid])
  show st.rows.find? (fun s => s.id == id) = some s
  rw [ha, heq]

theorem guardedTransition_fst {p : Session → Bool} {f : Session → Session}
    {st : Store} :
    (guardedTransition p f st).1 =
      { st with rows := st.rows.map (sqlUpdateRow p f) } := rfl

theorem guardedTransition_ok_iff {p : Session → Bool} {f : Session → Session}
    {st : Store} :
    (guardedTransition p f st).2 = TransitionOutcome.ok ↔
      ∃ s ∈ st.rows, p s := by
  show (if st.rows.countP p = 0 then TransitionOutcome.clientError
        else TransitionOutcome.ok) = TransitionOutcome.ok ↔ _
  by_cases h : st.rows.countP p = 0
  · rw [if_pos h]
    simp only [iff_false, reduceCtorEq, false_iff]
    intro ⟨s, hs, hps⟩
    exact countP_zero_iff.mp h s hs hps
  · rw [if_neg h]
    simp only [true_iff]
    exact List.countP_pos_iff.mp (Nat.pos_of_ne_zero h)

theorem guardedTransition_of_no_match {p : Session → Bool}
    {f : Session → Session} {st : Store}
    (h : ∀ s ∈ st.rows, ¬ p s) :
    guardedTransition p f st = (st, TransitionOutcome.clientError) := by
  have hz : st.rows.countP p = 0 := countP_zero_iff.mpr h
  show ({ st with rows := st.rows.map (sqlUpdateRow p f) },
        if st.rows.countP p = 0 then TransitionOutcome.clientError
        else TransitionOutcome.ok) = (st, TransitionOutcome.clientError)
  rw [hz, map_sqlUpdateRow_of_countP_zero hz]
  rfl

theorem guardedTransition_findById {p : Session → Bool}
    {f : Session → Session} (hf : ∀ s, (f s).id = s.id)
    (st : Store) (id : Nat) :
    findById (guardedTransition p f st).1 id =
      (findById st id).map (sqlUpdateRow p f) := by
  rw [guardedTransition_fst]
  exact find?_beqid_map (sqlUpdateRow_id hf) st.rows id

/-- One allowed status change: either nothing, or one edge of the chain
`pending → live → ended`. -/
def statusStep (a b : String) : Prop :=
  b = a ∨ (a = "pending" ∧ b = "live") ∨ (a = "live" ∧ b = "ended")

theorem statusStep_rank {a b : String} (h : statusStep a b) :
    statusRank a ≤ statusRank b := by
  rcases h with rfl | ⟨ha, hb⟩ | ⟨ha, hb⟩
  · exact Nat.le_refl _
  · rw [ha, hb]; decide
  · rw [ha, hb]; decide

theorem statusStep_of_ended {a b : String} (h : statusStep a b)
    (ha : a = "ended") : b = "ended" := by
  rcases h with rfl | ⟨ha', _⟩ | ⟨ha', hb⟩
  · exact ha
  · rw [ha] at ha'; exact absurd ha' (by decide)
  · exact hb

theorem statusStep_no_skip {a b : String} (h : statusStep a b)
    (ha : a = "pending") : b ≠ "ended" := by
  rcases h with rfl | ⟨_, hb⟩ | ⟨ha', _⟩
  · rw [ha]; decide
  · rw [hb]; decide
  · rw [ha] at ha'; exact absurd ha' (by decide)

/-- Facts about one guarded UPDATE whose WHERE clause implies a legal
transition: the id of every row is preserved, every row moves along
`statusStep`, and every old row has a successor. -/
theorem mapUpdate_step {p : Session → Bool} {f : Session → Session}
    (hf : ∀ s, (f s).id = s.id)
    (hstep : ∀ s, p s = true → statusStep s.status (f s).status)
    {st : Store} (h : st.wf) :
    (∀ s ∈ st.rows, ∀ s' ∈ st.rows.map (sqlUpdateRow p f),
        s'.id = s.id → statusStep s.status s'.status) ∧
    (∀ s ∈ st.rows, sqlUpdateRow p f s ∈ st.rows.map (sqlUpdateRow p f) ∧
        (sqlUpdateRow p f s).id = s.id ∧
        statusStep s.status (sqlUpdateRow p f s).status) ∧
    Store.wf { st with rows := st.rows.map (sqlUpdateRow p f) } := by
  have hgid : ∀ s, (sqlUpdateRow p f s).id = s.id := sqlUpdateRow_id hf
  have hgstep : ∀ s, statusStep s.status (sqlUpdateRow p f s).status := by
    intro s
    unfold sqlUpdateRow
    by_cases hp : p s
    · rw [if_pos hp]; exact hstep s hp
    · rw [if_neg hp]; exact Or.inl rfl
  refine ⟨?_, ?_, ?_, ?_⟩
  · intro s hs s' hs' hid
    rcases List.mem_map.mp hs' with ⟨u, hu, hgu⟩
    have huid : u.id = s.id := by rw [← hgu] at hid; rw [← hid, hgid]
    have : u = s := mem_unique_id h.2 hu hs huid
    rw [← hgu, this]
    exact hgstep s
  · intro s hs
    exact ⟨List.mem_map_of_mem _ hs, hgid s, hgstep s⟩
  · intro s' hs'
    rcases List.mem_map.mp hs' with ⟨u, hu, hgu⟩
    rw [← hgu, hgid]
    exact h.1 u hu
  · refine List.Pairwise.map _ ?_ h.2
    intro a b hab
    rw [hgid, hgid]
    exact hab

/-- Step facts for an operation that leaves the table unchanged. -/
theorem unchanged_step {st : Store} (h : st.wf) :
    (∀ s ∈ st.rows, ∀ s' ∈ st.rows, s'.id = s.id →
        statusStep s.status s'.status) ∧
    (∀ s ∈ st.rows, ∃ s' ∈ st.rows, s'.id = s.id ∧
        statusStep s.status s'.status) ∧
    (∀ s' ∈ st.rows, (∀ s ∈ st.rows, s.id ≠ s'.id) →
        s'.status = "pending") ∧
    st.wf := by
  refine ⟨?_, ?_, ?_, h⟩
  · intro s hs s' hs' hid
    rw [mem_unique_id h.2 hs' hs hid]
    exact Or.inl rfl
  · intro s hs
    exact ⟨s, hs, rfl, Or.inl rfl⟩
  · intro s' hs' hall
    exact absurd rfl (hall s' hs')

/-- Step facts for one guarded UPDATE whose WHERE clause implies a legal
transition. -/
theorem guardedStore_step {p : Session → Bool} {f : Session → Session}
    (hf : ∀ s, (f s).id = s.id)
    (hstep : ∀ s, p s = true → statusStep s.status (f s).status)
    {st : Store} (h : st.wf) :
    (∀ s ∈ st.rows,
        ∀ s' ∈ (st.rows.map (sqlUpdateRow p f)), s'.id = s.id →
        statusStep s.status s'.status) ∧
    (∀ s ∈ st.rows, ∃ s' ∈ (st.rows.map (sqlUpdateRow p f)), s'.id = s.id ∧
        statusStep s.status s'.status) ∧
    (∀ s' ∈ (st.rows.map (sqlUpdateRow p f)),
        (∀ s ∈ st.rows, s.id ≠ s'.id) → s'.status = "pending") ∧
    Store.wf { st with rows := st.rows.map (sqlUpdateRow p f) } := by
  obtain ⟨h1, h2, h3⟩ := mapUpdate_step hf hstep h
  refine ⟨h1, ?_, ?_, h3⟩
  · intro s hs
    obtain ⟨hm, hid, hst⟩ := h2 s hs
    exact ⟨_, hm, hid, hst⟩
  · intro s' hs' hall
    rcases List.mem_map.mp hs' with ⟨u, hu, hgu⟩
    have : u.id = s'.id := by rw [← hgu, sqlUpdateRow_id hf]
    exact absurd this (hall u hu)

/-- Step facts for `createLiveSession`: the inserted row is `pending`, every
old row is untouched, and well-formedness is preserved (in both the
successful and the compensating-delete branch). -/
theorem create_step (cfg : Config) (courseId : Int) (sec : Nat)
    (nanos : List Nat) (provisionOk : Bool) (dbNow respNow : Nat)
    {st : Store} (h : st.wf) :
    (∀ s ∈ st.rows,
        ∀ s' ∈ (createLiveSession cfg courseId sec nanos provisionOk
            dbNow respNow st).1.rows,
        s'.id = s.id → statusStep s.status s'.status) ∧
    (∀ s ∈ st.rows,
        ∃ s' ∈ (createLiveSession cfg courseId sec nanos provisionOk
            dbNow respNow st).1.rows,
        s'.id = s.id ∧ statusStep s.status s'.status) ∧
    (∀ s' ∈ (createLiveSession cfg courseId sec nanos provisionOk
        dbNow respNow st).1.rows,
        (∀ s ∈ st.rows, s.id ≠ s'.id) → s'.status = "pending") ∧
    (createLiveSession cfg courseId sec nanos provisionOk
        dbNow respNow st).1.wf := by
  set newRow : Session :=
    { id := st.nextId, courseId := courseId,
      streamKey := generateStreamKey sec nanos, status := "pending",
      startTime := none, endTime := none, createdAt := dbNow } with hnew
  have hmem_ins :
      ∀ s' ∈ (createLiveSession cfg courseId sec nanos provisionOk
          dbNow respNow st).1.rows, s' ∈ st.rows ++ [newRow] := by
    intro s' hs'
    by_cases hp : provisionOk
    · simp only [createLiveSession, hp, if_true] at hs'
      exact hs'
    · simp only [createLiveSession, hp, if_false, deleteById] at hs'
      exact List.mem_of_mem_filter hs'
  have hold_mem :
      ∀ s ∈ st.rows,
        s ∈ (createLiveSession cfg courseId sec nanos provisionOk
            dbNow respNow st).1.rows := by
    intro s hs
    by_cases hp : provisionOk
    · simp only [createLiveSession, hp, if_true]
      exact List.mem_append_left _ hs
    · simp only [createLiveSession, hp, if_false, deleteById]
      refine List.mem_filter.mpr ⟨List.mem_append_left _ hs, ?_⟩
      have : s.id < st.nextId := h.1 s hs
      simp only [decide_eq_true_eq]
      omega
  have hins_wf : Store.wf ⟨st.rows ++ [newRow], st.nextId + 1⟩ := by
    constructor
    · intro s hs
      show s.id < st.nextId + 1
      rcases List.mem_append.mp hs with hs | hs
      · have := h.1 s hs; omega
      · rcases List.mem_singleton.mp hs with rfl
        show st.nextId < st.nextId + 1
        omega
    · rw [List.pairwise_append]
      refine ⟨h.2, List.pairwise_singleton _ _, ?_⟩
      intro a ha b hb
      rcases List.mem_singleton.mp hb with rfl
      have := h.1 a ha
      simp only [hnew]
      omega
  refine ⟨?_, ?_, ?_, ?_⟩
  · intro s hs s' hs' hid
    rcases List.mem_append.mp (hmem_ins s' hs') with hs'2 | hs'2
    · rw [mem_unique_id h.2 hs'2 hs hid]
      exact Or.inl rfl
    · rcases List.mem_singleton.mp hs'2 with rfl
      have h1 : s.id < st.nextId := h.1 s hs
      have h2 : newRow.id = st.nextId := rfl
      rw [h2] at hid
      omega
  · intro s hs
    exact ⟨s, hold_mem s hs, rfl, Or.inl rfl⟩
  · intro s' hs' hall
    rcases List.mem_append.mp (hmem_ins s' hs') with hs'2 | hs'2
    · exact absurd rfl (hall s' hs'2)
    · rcases List.mem_singleton.mp hs'2 with rfl
      rfl
  · by_cases hp : provisionOk
    · simp only [createLiveSession, hp, if_true]
      exact hins_wf
    · simp only [createLiveSession, hp, if_false, deleteById]
      constructor
      · intro s hs
        exact hins_wf.1 s (List.mem_of_mem_filter hs)
      · exact List.Pairwise.sublist (List.filter_sublist _) hins_wf.2

theorem startPred_step (id now : Nat) :
    ∀ s, startPred id s = true → statusStep s.status (startUpd now s).status := by
  intro s hp
  simp only [startPred, Bool.and_eq_true, beq_iff_eq] at hp
  exact Or.inr (Or.inl ⟨hp.2, rfl⟩)

theorem endPred_step (id now : Nat) :
    ∀ s, endPred id s = true → statusStep s.status (endUpd now s).status := by
  intro s hp
  simp only [endPred, Bool.and_eq_true, beq_iff_eq] at hp
  exact Or.inr (Or.inr ⟨hp.2, rfl⟩)

theorem cbStartPred_step (k : String) (now : Nat) :
    ∀ s, cbStartPred k s = true → statusStep s.status (startUpd now s).status := by
  intro s hp
  simp only [cbStartPred, Bool.and_eq_true, beq_iff_eq] at hp
  exact Or.inr (Or.inl ⟨hp.2, rfl⟩)

theorem cbStopPred_step (k : String) (now : Nat) :
    ∀ s, cbStopPred k s = true → statusStep s.status (endUpd now s).status := by
  intro s hp
  simp only [cbStopPred, Bool.and_eq_true, beq_iff_eq] at hp
  exact Or.inr (Or.inr ⟨hp.2, rfl⟩)

/-- Step facts for an arbitrary lifecycle operation. -/
theorem applyOp_step (cfg : Config) (op : Op) {st : Store} (h : st.wf) :
    (∀ s ∈ st.rows, ∀ s' ∈ (applyOp cfg op st).rows, s'.id = s.id →
        statusStep s.status s'.status) ∧
    (∀ s ∈ st.rows, ∃ s' ∈ (applyOp cfg op st).rows, s'.id = s.id ∧
        statusStep s.status s'.status) ∧
    (∀ s' ∈ (applyOp cfg op st).rows, (∀ s ∈ st.rows, s.id ≠ s'.id) →
        s'.status = "pending") ∧
    (applyOp cfg op st).wf := by
  cases op with
  | create courseId sec nanos provisionOk dbNow respNow =>
      exact create_step cfg courseId sec nanos provisionOk dbNow respNow h
  | start id now =>
      exact guardedStore_step (f := startUpd now) (fun s => rfl) (startPred_step id now) h
  | finish id now =>
      exact guardedStore_step (f := endUpd now) (fun s => rfl) (endPred_step id now) h
  | callback path event now =>
      by_cases hlen : (stringSplit path '/').length < 3
      · have hred : applyOp cfg (Op.callback path event now) st = st := by
          simp [applyOp, handleLiveStatusCallback, hlen]
        rw [hred]
        exact unchanged_step h
      · have hred : applyOp cfg (Op.callback path event now) st =
            applyExternalStatus event ((stringSplit path '/').getD 2 "") now st := by
          simp [applyOp, handleLiveStatusCallback, hlen]
        rw [hred]
        by_cases hev : event = "start"
        · have h2 : applyExternalStatus event
              ((stringSplit path '/').getD 2 "") now st =
              { st with rows := st.rows.map (sqlUpdateRow
                (cbStartPred ((stringSplit path '/').getD 2 ""))
                (startUpd now)) } := by
            rw [hev]
            rfl
          rw [h2]
          exact guardedStore_step (f := startUpd now) (fun s => rfl)
            (cbStartPred_step ((stringSplit path '/').getD 2 "") now) h
        · by_cases hev2 : event = "stop"
          · have h2 : applyExternalStatus event
                ((stringSplit path '/').getD 2 "") now st =
                { st with rows := st.rows.map (sqlUpdateRow
                  (cbStopPred ((stringSplit path '/').getD 2 ""))
                  (endUpd now)) } := by
              rw [hev2]
              rfl
            rw [h2]
            exact guardedStore_step (f := endUpd now) (fun s => rfl)
              (cbStopPred_step ((stringSplit path '/').getD 2 "") now) h
          · have h2 : applyExternalStatus event
                ((stringSplit path '/').getD 2 "") now st = st := by
              simp [applyExternalStatus, hev, hev2]
            rw [h2]
            exact unchanged_step h

/-- Well-formedness is preserved by any sequence of lifecycle operations. -/
theorem applyOps_wf (cfg : Config) (ops : List Op) {st : Store} (h : st.wf) :
    (applyOps cfg ops st).wf := by
  induction ops generalizing st with
  | nil => exact h
  | cons op rest ih => exact ih ((applyOp_step cfg op h).2.2.2)

/-- Status rank never decreases along any sequence of lifecycle operations. -/
theorem applyOps_rank (cfg : Config) (ops : List Op) {st : Store} (h : st.wf) :
    ∀ s ∈ st.rows, ∀ s' ∈ (applyOps cfg ops st).rows, s'.id = s.id →
      statusRank s.status ≤ statusRank s'.status := by
  induction ops generalizing st with
  | nil =>
      intro s hs s' hs' hid
      rw [mem_unique_id h.2 hs' hs hid]
  | cons op rest ih =>
      intro s hs s' hs' hid
      obtain ⟨s2, hs2, hid2, hstep2⟩ := (applyOp_step cfg op h).2.1 s hs
      have hwf2 := (applyOp_step cfg op h).2.2.2
      have hrest := ih hwf2 s2 hs2 s' hs' (hid.trans hid2.symm)
      exact le_trans (statusStep_rank hstep2) hrest

theorem store_mk_rows_eq {st : Store} {l : List Session} (h : l = st.rows) :
    ({ st with rows := l } : Store) = st := by
  cases st
  simp only at h
  rw [h]

theorem startPred_true_iff {id : Nat} {s : Session} :
    startPred id s = true ↔ s.id = id ∧ s.status = "pending" := by
  simp [startPred, Bool.and_eq_true, beq_iff_eq]

theorem endPred_true_iff {id : Nat} {s : Session} :
    endPred id s = true ↔ s.id = id ∧ s.status = "live" := by
  simp [endPred, Bool.and_eq_true, beq_iff_eq]

/-! ### Claims -/

/-- C2: Start(id) succeeds — moving the session to status `live` and
stamping its start time — iff a session with that id exists with status
`pending`; in every other case (unknown id, or any other status) it
returns the one client-error outcome, which carries no information
distinguishing "not found" from "wrong state", and leaves the store
unchanged. -/
theorem start_succeeds_iff_pending (st : Store) (id now : Nat) (h : st.wf) :
    ((startLiveSession id now st).2 = TransitionOutcome.ok ↔
      ∃ s ∈ st.rows, s.id = id ∧ s.status = "pending")
    ∧ (¬ (∃ s ∈ st.rows, s.id = id ∧ s.status = "pending") →
        startLiveSession id now st = (st, TransitionOutcome.clientError))
    ∧ (∀ s ∈ st.rows, s.id = id → s.status = "pending" →
        findById (startLiveSession id now st).1 id =
          some { s with status := "live", startTime := some now }) := by
  refine ⟨?_, ?_, ?_⟩
  · refine guardedTransition_ok_iff.trans ?_
    constructor
    · intro ⟨s, hs, hp⟩
      exact ⟨s, hs, startPred_true_iff.mp hp⟩
    · intro ⟨s, hs, hp⟩
      exact ⟨s, hs, startPred_true_iff.mpr hp⟩
  · intro hno
    apply guardedTransition_of_no_match
    intro s hs hp
    exact hno ⟨s, hs, startPred_true_iff.mp hp⟩
  · intro s hs hid hp
    have hfind : findById st id = some s := findById_eq_some_of_mem h hs hid
    have hmap : findById (startLiveSession id now st).1 id =
        (findById st id).map (sqlUpdateRow (startPred id) (startUpd now)) :=
      guardedTransition_findById (p := startPred id) (f := startUpd now)
        (fun s => rfl) st id
    rw [hmap, hfind, Option.map_some']
    have hps : startPred id s = true := startPred_true_iff.mpr ⟨hid, hp⟩
    show some (sqlUpdateRow (startPred id) (startUpd now) s) = _
    rw [sqlUpdateRow, if_pos hps]
    rfl

/-- C2 witness: on a one-row pending store, Start succeeds; on the same
store with an unknown id it returns the client error and leaves the store
unchanged. -/
theorem start_succeeds_iff_pending_witness :
    (startLiveSession 0 9 ⟨[⟨0, 1, "k", "pending", none, none, 2⟩], 1⟩).2 =
      TransitionOutcome.ok
    ∧ startLiveSession 7 9 ⟨[⟨0, 1, "k", "pending", none, none, 2⟩], 1⟩ =
      (⟨[⟨0, 1, "k", "pending", none, none, 2⟩], 1⟩,
        TransitionOutcome.clientError) :=
  ⟨(start_succeeds_iff_pending ⟨[⟨0, 1, "k", "pending", none, none, 2⟩], 1⟩
      0 9 (by constructor <;> decide)).1.mpr
      ⟨⟨0, 1, "k", "pending", none, none, 2⟩, by decide, rfl, rfl⟩,
   (start_succeeds_iff_pending ⟨[⟨0, 1, "k", "pending", none, none, 2⟩], 1⟩
      7 9 (by constructor <;> decide)).2.1 (by decide)⟩

/-- C7: the precondition and mutation of Start are one atomic statement, so
of two Start calls on the same pending session (in either serialization
order — both calls are symmetric in their timestamps) the first succeeds,
the second returns the client error and changes nothing, and the start
timestamp is stamped exactly once, by the winner. -/
theorem start_race_one_winner (st : Store) (id n1 n2 : Nat) (s : Session)
    (h : st.wf) (hs : s ∈ st.rows) (hid : s.id = id)
    (hp : s.status = "pending") :
    (startLiveSession id n1 st).2 = TransitionOutcome.ok
    ∧ (startLiveSession id n2 (startLiveSession id n1 st).1).2 =
        TransitionOutcome.clientError
    ∧ (startLiveSession id n2 (startLiveSession id n1 st).1).1 =
        (startLiveSession id n1 st).1
    ∧ findById (startLiveSession id n2 (startLiveSession id n1 st).1).1 id =
        some { s with status := "live", startTime := some n1 } := by
  have hok : (startLiveSession id n1 st).2 = TransitionOutcome.ok :=
    guardedTransition_ok_iff.mpr ⟨s, hs, startPred_true_iff.mpr ⟨hid, hp⟩⟩
  have hrows1 : (startLiveSession id n1 st).1.rows =
      st.rows.map (sqlUpdateRow (startPred id) (startUpd n1)) := rfl
  have hno : ∀ t ∈ (startLiveSession id n1 st).1.rows, ¬ startPred id t := by
    intro t ht hpt
    rw [hrows1] at ht
    rcases List.mem_map.mp ht with ⟨u, hu, hgu⟩
    rcases startPred_true_iff.mp hpt with ⟨htid, htp⟩
    have huid : u.id = id := by
      rw [← htid, ← hgu,
        sqlUpdateRow_id (p := startPred id) (f := startUpd n1) (fun s => rfl) u]
    have hus : u = s := mem_unique_id h.2 hu hs (by rw [huid, hid])
    have hpu : startPred id u = true :=
      startPred_true_iff.mpr ⟨huid, by rw [hus]; exact hp⟩
    have : t = startUpd n1 u := by
      rw [← hgu, sqlUpdateRow, if_pos hpu]
    rw [this] at htp
    exact absurd htp (by simp [startUpd])
  have hsecond := guardedTransition_of_no_match (f := startUpd n2) hno
  have hfind1 : findById (startLiveSession id n1 st).1 id =
      some { s with status := "live", startTime := some n1 } := by
    have hfind : findById st id = some s := findById_eq_some_of_mem h hs hid
    have hmap : findById (startLiveSession id n1 st).1 id =
        (findById st id).map (sqlUpdateRow (startPred id) (startUpd n1)) :=
      guardedTransition_findById (p := startPred id) (f := startUpd n1)
        (fun s => rfl) st id
    rw [hmap, hfind, Option.map_some']
    have hps : startPred id s = true := startPred_true_iff.mpr ⟨hid, hp⟩
    show some (sqlUpdateRow (startPred id) (startUpd n1) s) = _
    rw [sqlUpdateRow, if_pos hps]
    rfl
  refine ⟨hok, ?_, ?_, ?_⟩
  · show (guardedTransition (startPred id) (startUpd n2)
      (startLiveSession id n1 st).1).2 = TransitionOutcome.clientError
    rw [hsecond]
  · show (guardedTransition (startPred id) (startUpd n2)
      (startLiveSession id n1 st).1).1 = (startLiveSession id n1 st).1
    rw [hsecond]
  · show findById (guardedTransition (startPred id) (startUpd n2)
      (startLiveSession id n1 st).1).1 id = _
    rw [hsecond]
    exact hfind1

/-- C7 witness: on a concrete one-row pending store, the second of two
Start calls reports the client error. -/
theorem start_race_one_winner_witness :
    (startLiveSession 0 6
      (startLiveSession 0 5 ⟨[⟨0, 1, "k", "pending", none, none, 2⟩], 1⟩).1).2 =
      TransitionOutcome.clientError :=
  (start_race_one_winner ⟨[⟨0, 1, "k", "pending", none, none, 2⟩], 1⟩ 0 5 6
    ⟨0, 1, "k", "pending", none, none, 2⟩ (by constructor <;> decide)
    (by decide) rfl rfl).2.1

/-- C9: a successful Start(id) changes only the session's status and start
timestamp and a successful End(id) only the status and end timestamp —
`courseRef` (courseId), streamKey, createdAt and the other transition's
timestamp are carried over unchanged in the record update — and every row
with a different id is untouched. -/
theorem transition_frame (st : Store) (id now : Nat) (s : Session)
    (h : st.wf) (hs : s ∈ st.rows) (hid : s.id = id) :
    (s.status = "pending" →
      (startLiveSession id now st).2 = TransitionOutcome.ok
      ∧ findById (startLiveSession id now st).1 id =
          some { id := s.id, courseId := s.courseId, streamKey := s.streamKey,
                 status := "live", startTime := some now,
                 endTime := s.endTime, createdAt := s.createdAt }
      ∧ ∀ t ∈ st.rows, t.id ≠ id → t ∈ (startLiveSession id now st).1.rows)
    ∧ (s.status = "live" →
      (endLiveSession id now st).2 = TransitionOutcome.ok
      ∧ findById (endLiveSession id now st).1 id =
          some { id := s.id, courseId := s.courseId, streamKey := s.streamKey,
                 status := "ended", startTime := s.startTime,
                 endTime := some now, createdAt := s.createdAt }
      ∧ ∀ t ∈ st.rows, t.id ≠ id → t ∈ (endLiveSession id now st).1.rows) := by
  constructor
  · intro hp
    have hps : startPred id s = true := startPred_true_iff.mpr ⟨hid, hp⟩
    refine ⟨guardedTransition_ok_iff.mpr ⟨s, hs, hps⟩, ?_, ?_⟩
    · have hmap : findById (startLiveSession id now st).1 id =
          (findById st id).map (sqlUpdateRow (startPred id) (startUpd now)) :=
        guardedTransition_findById (p := startPred id) (f := startUpd now)
          (fun s => rfl) st id
      rw [hmap, findById_eq_some_of_mem h hs hid, Option.map_some']
      show some (sqlUpdateRow (startPred id) (startUpd now) s) = _
      rw [sqlUpdateRow, if_pos hps]
      rfl
    · intro t ht hne
      have hnp : ¬ (startPred id t = true) := by
        intro hpt
        exact hne (startPred_true_iff.mp hpt).1
      have : sqlUpdateRow (startPred id) (startUpd now) t = t := by
        rw [sqlUpdateRow, if_neg hnp]
      have hmem : sqlUpdateRow (startPred id) (startUpd now) t ∈
          (startLiveSession id now st).1.rows := List.mem_map_of_mem _ ht
      rw [this] at hmem
      exact hmem
  · intro hl
    have hps : endPred id s = true := endPred_true_iff.mpr ⟨hid, hl⟩
    refine ⟨guardedTransition_ok_iff.mpr ⟨s, hs, hps⟩, ?_, ?_⟩
    · have hmap : findById (endLiveSession id now st).1 id =
          (findById st id).map (sqlUpdateRow (endPred id) (endUpd now)) :=
        guardedTransition_findById (p := endPred id) (f := endUpd now)
          (fun s => rfl) st id
      rw [hmap, findById_eq_some_of_mem h hs hid, Option.map_some']
      show some (sqlUpdateRow (endPred id) (endUpd now) s) = _
      rw [sqlUpdateRow, if_pos hps]
      rfl
    · intro t ht hne
      have hnp : ¬ (endPred id t = true) := by
        intro hpt
        exact hne (endPred_true_iff.mp hpt).1
      have : sqlUpdateRow (endPred id) (endUpd now) t = t := by
        rw [sqlUpdateRow, if_neg hnp]
      have hmem : sqlUpdateRow (endPred id) (endUpd now) t ∈
          (endLiveSession id now st).1.rows := List.mem_map_of_mem _ ht
      rw [this] at hmem
      exact hmem

/-- C9 witness: on a concrete two-row store, ending the live session leaves
the untouched pending row in place and stamps only the end fields. -/
theorem transition_frame_witness :
    findById (endLiveSession 1 9
      ⟨[⟨0, 1, "k", "pending", none, none, 2⟩,
        ⟨1, 2, "m", "live", some 5, none, 3⟩], 2⟩).1 1 =
      some ⟨1, 2, "m", "ended", some 5, some 9, 3⟩
    ∧ ⟨0, 1, "k", "pending", none, none, 2⟩ ∈ (endLiveSession 1 9
      ⟨[⟨0, 1, "k", "pending", none, none, 2⟩,
        ⟨1, 2, "m", "live", some 5, none, 3⟩], 2⟩).1.rows :=
  ⟨((transition_frame
      ⟨[⟨0, 1, "k", "pending", none, none, 2⟩,
        ⟨1, 2, "m", "live", some 5, none, 3⟩], 2⟩ 1 9
      ⟨1, 2, "m", "live", some 5, none, 3⟩
      (by constructor <;> decide) (by decide) rfl).2 rfl).2.1,
   ((transition_frame
      ⟨[⟨0, 1, "k", "pending", none, none, 2⟩,
        ⟨1, 2, "m", "live", some 5, none, 3⟩], 2⟩ 1 9
      ⟨1, 2, "m", "live", some 5, none, 3⟩
      (by constructor <;> decide) (by decide) rfl).2 rfl).2.2
      ⟨0, 1, "k", "pending", none, none, 2⟩ (by decide) (by decide)⟩

/-- C3: statuses move only along `pending → live → ended`: under any single
operation a row's status either stays or takes one legal edge, a status of
`ended` never changes, a `pending` row never becomes `ended` in one
operation, any freshly inserted row has status `pending`, and along any
operation sequence the status rank never decreases. -/
theorem lifecycle_status_machine (cfg : Config) (st : Store) (h : st.wf) :
    (∀ op, ∀ s ∈ st.rows, ∀ s' ∈ (applyOp cfg op st).rows, s'.id = s.id →
        (s'.status = s.status ∨ (s.status = "pending" ∧ s'.status = "live") ∨
         (s.status = "live" ∧ s'.status = "ended")))
    ∧ (∀ op, ∀ s ∈ st.rows, ∀ s' ∈ (applyOp cfg op st).rows, s'.id = s.id →
        s.status = "ended" → s'.status = "ended")
    ∧ (∀ op, ∀ s ∈ st.rows, ∀ s' ∈ (applyOp cfg op st).rows, s'.id = s.id →
        s.status = "pending" → s'.status ≠ "ended")
    ∧ (∀ op, ∀ s' ∈ (applyOp cfg op st).rows,
        (∀ s ∈ st.rows, s.id ≠ s'.id) → s'.status = "pending")
    ∧ (∀ ops, ∀ s ∈ st.rows, ∀ s' ∈ (applyOps cfg ops st).rows, s'.id = s.id →
        statusRank s.status ≤ statusRank s'.status) := by
  refine ⟨?_, ?_, ?_, ?_, ?_⟩
  · intro op s hs s' hs' hid
    exact (applyOp_step cfg op h).1 s hs s' hs' hid
  · intro op s hs s' hs' hid hend
    exact statusStep_of_ended ((applyOp_step cfg op h).1 s hs s' hs' hid) hend
  · intro op s hs s' hs' hid hpend
    exact statusStep_no_skip ((applyOp_step cfg op h).1 s hs s' hs' hid) hpend
  · intro op s' hs' hall
    exact (applyOp_step cfg op h).2.2.1 s' hs' hall
  · intro ops s hs s' hs' hid
    exact applyOps_rank cfg ops h s hs s' hs' hid

/-- C3 witness: the row freshly created on a concrete empty store has
status `pending`. -/
theorem lifecycle_status_machine_witness :
    (⟨0, 1, "live_0_a", "pending", none, none, 0⟩ : Session).status =
      "pending" :=
  (lifecycle_status_machine ⟨"lg"⟩ ⟨[], 0⟩ (by constructor <;> decide)).2.2.2.1
    (Op.create 1 0 [0] true 0 0)
    ⟨0, 1, "live_0_a", "pending", none, none, 0⟩ (by decide) (by decide)

/-- The status field of a create response, when creation succeeded. -/
def CreateOutcome.statusOf : CreateOutcome → Option String
  | CreateOutcome.created v => some v.status
  | CreateOutcome.provisionFailed => none

/-- The playback-URL map of a create response, when creation succeeded. -/
def CreateOutcome.playUrlsOf : CreateOutcome → Option (List (String × String))
  | CreateOutcome.created v => some v.playUrls
  | CreateOutcome.provisionFailed => none

/-- C1 counterexample: a successful Create returns a session whose status is
`pending` and whose playback-URL map is nevertheless fully populated (three
entries, not empty), because `createLiveSession` unconditionally calls
`getPlayURLs` when building the response (src/main.go:518).  So playback
endpoints are not present only when the status is `live`, and the Create
response does not carry empty endpoints. -/
theorem create_response_playurls_not_empty :
    ((createLiveSession ⟨"lg"⟩ 42 100 [0, 0, 0, 0, 0, 0, 0, 0, 0, 0] true 7 8
        ⟨[], 0⟩).2).statusOf = some "pending"
    ∧ ((createLiveSession ⟨"lg"⟩ 42 100 [0, 0, 0, 0, 0, 0, 0, 0, 0, 0] true 7 8
        ⟨[], 0⟩).2).playUrlsOf =
        some (getPlayURLs ⟨"lg"⟩ "live_100_aaaaaaaaaa")
    ∧ ((createLiveSession ⟨"lg"⟩ 42 100 [0, 0, 0, 0, 0, 0, 0, 0, 0, 0] true 7 8
        ⟨[], 0⟩).2).playUrlsOf ≠ some [] := by
  refine ⟨rfl, by decide, by decide⟩

/-- C1 (amended): Get(id) attaches the playback-URL map iff the stored
status is `live`; the Create response, although its status is `pending`,
carries the fully computed (nonempty) playback-URL map. -/
theorem playurls_iff_live (cfg : Config) (st : Store) (id : Nat) :
    (∀ v, getLiveSession cfg id st = GetOutcome.ok v →
        (v.playUrls ≠ [] ↔ v.status = "live"))
    ∧ (∀ courseId sec nanos dbNow respNow st2 v,
        createLiveSession cfg courseId sec nanos true dbNow respNow st =
          (st2, CreateOutcome.created v) →
        v.status = "pending" ∧ v.playUrls = getPlayURLs cfg v.streamKey ∧
          v.playUrls ≠ []) := by
  constructor
  · intro v hv
    unfold getLiveSession at hv
    cases hfind : findById st id with
    | none =>
        rw [hfind] at hv
        exact absurd hv (by simp)
    | some s =>
        rw [hfind] at hv
        injection hv with hv2
        subst hv2
        show (if s.status = "live" then getPlayURLs cfg s.streamKey else []) ≠
            [] ↔ s.status = "live"
        by_cases hst : s.status = "live"
        · rw [if_pos hst]
          simp [hst, getPlayURLs]
        · rw [if_neg hst]
          simp [hst]
  · intro courseId sec nanos dbNow respNow st2 v heq
    simp only [createLiveSession] at heq
    rw [if_pos trivial, Prod.mk.injEq] at heq
    injection heq.2 with hv
    subst hv
    refine ⟨rfl, rfl, ?_⟩
    simp [getPlayURLs]

/-- C1 witness: on a concrete one-row live store, the Get view has the
equivalence instantiated. -/
theorem playurls_iff_live_witness :
    ((⟨0, 1, "k", "live", none, none, 0, getPlayURLs ⟨"x"⟩ "k"⟩ :
        LiveSessionView).playUrls ≠ [] ↔
      (⟨0, 1, "k", "live", none, none, 0, getPlayURLs ⟨"x"⟩ "k"⟩ :
        LiveSessionView).status = "live") :=
  (playurls_iff_live ⟨"x"⟩ ⟨[⟨0, 1, "k", "live", none, none, 0⟩], 1⟩ 0).1
    ⟨0, 1, "k", "live", none, none, 0, getPlayURLs ⟨"x"⟩ "k"⟩ rfl

/-- C4: when the provisioning call fails, Create reports the provisioning
failure and compensates by deleting the row it had just inserted: Get on
the allocated id reports not-found, and on a well-formed store the table
is exactly what it was before the Create. -/
theorem create_rollback_on_provision_failure (cfg : Config) (courseId : Int)
    (sec : Nat) (nanos : List Nat) (dbNow respNow : Nat) (st : Store) :
    (createLiveSession cfg courseId sec nanos false dbNow respNow st).2 =
      CreateOutcome.provisionFailed
    ∧ findById
        (createLiveSession cfg courseId sec nanos false dbNow respNow st).1
        st.nextId = none
    ∧ getLiveSession cfg st.nextId
        (createLiveSession cfg courseId sec nanos false dbNow respNow st).1 =
        GetOutcome.notFound
    ∧ (st.wf →
        (createLiveSession cfg courseId sec nanos false dbNow respNow
          st).1.rows = st.rows) := by
  have hfind : findById
      (createLiveSession cfg courseId sec nanos false dbNow respNow st).1
      st.nextId = none := by
    apply List.find?_eq_none.mpr
    intro x hx
    have hpx := List.of_mem_filter hx
    simp only [decide_eq_true_eq] at hpx
    simp only [beq_iff_eq]
    exact hpx
  refine ⟨rfl, hfind, ?_, ?_⟩
  · unfold getLiveSession
    rw [hfind]
  · intro h
    show ((st.rows ++ [_]).filter _) = st.rows
    rw [List.filter_append]
    have h1 : st.rows.filter
        (fun s => decide (s.id ≠ st.nextId)) = st.rows := by
      apply List.filter_eq_self.mpr
      intro a ha
      have := h.1 a ha
      simp only [decide_eq_true_eq]
      omega
    have h2 : ∀ r : Session, r.id = st.nextId →
        ([r].filter (fun s => decide (s.id ≠ st.nextId))) = [] := by
      intro r hr
      simp [List.filter, hr]
    rw [h1, h2 _ rfl, List.append_nil]

/-- C4 witness: on a concrete one-row store, the failed Create leaves the
table unchanged. -/
theorem create_rollback_on_provision_failure_witness :
    (createLiveSession ⟨"lg"⟩ 1 0 [0] false 0 0
      ⟨[⟨0, 1, "k", "live", none, none, 0⟩], 1⟩).1.rows =
      [⟨0, 1, "k", "live", none, none, 0⟩] :=
  (create_rollback_on_provision_failure ⟨"lg"⟩ 1 0 [0] 0 0
    ⟨[⟨0, 1, "k", "live", none, none, 0⟩], 1⟩).2.2.2
    (by constructor <;> decide)

/-- C5: a status callback whose stream key matches no session, or whose
matched sessions are not in the state the event's guard requires (`pending`
for `start`, `live` for `stop`), changes no session state, and the handler
still acknowledges with the 200 response rather than an error. -/
theorem callback_unmatched_noop_ack (st : Store) (k event : String)
    (now : Nat)
    (h : ∀ s ∈ st.rows, s.streamKey = k →
      ¬ ((event = "start" ∧ s.status = "pending") ∨
         (event = "stop" ∧ s.status = "live"))) :
    applyExternalStatus event k now st = st
    ∧ (∀ path, 3 ≤ (stringSplit path '/').length →
        (stringSplit path '/').getD 2 "" = k →
        handleLiveStatusCallback path event now st =
          (st, CallbackOutcome.ack)) := by
  have hmain : applyExternalStatus event k now st = st := by
    by_cases hev : event = "start"
    · have hz : st.rows.countP (cbStartPred k) = 0 := by
        apply countP_zero_iff.mpr
        intro s hs hp
        simp only [cbStartPred, Bool.and_eq_true, beq_iff_eq] at hp
        exact h s hs hp.1 (Or.inl ⟨hev, hp.2⟩)
      have h1 : applyExternalStatus event k now st =
          (updateWhere (cbStartPred k) (startUpd now) st).1 := by
        rw [hev]
        rfl
      rw [h1]
      exact store_mk_rows_eq (map_sqlUpdateRow_of_countP_zero hz)
    · by_cases hev2 : event = "stop"
      · have hz : st.rows.countP (cbStopPred k) = 0 := by
          apply countP_zero_iff.mpr
          intro s hs hp
          simp only [cbStopPred, Bool.and_eq_true, beq_iff_eq] at hp
          exact h s hs hp.1 (Or.inr ⟨hev2, hp.2⟩)
        have h1 : applyExternalStatus event k now st =
            (updateWhere (cbStopPred k) (endUpd now) st).1 := by
          rw [hev2]
          rfl
        rw [h1]
        exact store_mk_rows_eq (map_sqlUpdateRow_of_countP_zero hz)
      · simp [applyExternalStatus, hev, hev2]
  refine ⟨hmain, ?_⟩
  intro path hlen hk
  have hnlt : ¬ ((stringSplit path '/').length < 3) := by omega
  show (if (stringSplit path '/').length < 3 then (st, CallbackOutcome.badRequest)
        else (applyExternalStatus event ((stringSplit path '/').getD 2 "") now st,
          CallbackOutcome.ack)) = (st, CallbackOutcome.ack)
  rw [if_neg hnlt, hk, hmain]

/-- C5 witness: a `start` callback against an already-ended session with
that stream key is a no-op acknowledged with 200. -/
theorem callback_unmatched_noop_ack_witness :
    applyExternalStatus "start" "k" 9
        ⟨[⟨0, 1, "k", "ended", none, none, 0⟩], 1⟩ =
      ⟨[⟨0, 1, "k", "ended", none, none, 0⟩], 1⟩
    ∧ handleLiveStatusCallback "/live/k" "start" 9
        ⟨[⟨0, 1, "k", "ended", none, none, 0⟩], 1⟩ =
      (⟨[⟨0, 1, "k", "ended", none, none, 0⟩], 1⟩, CallbackOutcome.ack) :=
  ⟨(callback_unmatched_noop_ack
      ⟨[⟨0, 1, "k", "ended", none, none, 0⟩], 1⟩ "k" "start" 9 (by decide)).1,
   (callback_unmatched_noop_ack
      ⟨[⟨0, 1, "k", "ended", none, none, 0⟩], 1⟩ "k" "start" 9 (by decide)).2
      "/live/k" (by decide) (by decide)⟩

/-- The stream key of a create response, when creation succeeded. -/
def CreateOutcome.streamKeyOf : CreateOutcome → Option String
  | CreateOutcome.created v => some v.streamKey
  | CreateOutcome.provisionFailed => none

/-- C6 counterexample: stream-key generation is a pure function of the
observed clock readings, so two successful Create operations that observe
the same `Unix()` second and the same `UnixNano()` readings return the
same stream key — the keys of two successful Creates are not always
distinct. -/
theorem streamKey_collision :
    ((createLiveSession ⟨"lg"⟩ 1 100 [0, 0, 0, 0, 0, 0, 0, 0, 0, 0] true 0 0
        ⟨[], 0⟩).2).streamKeyOf = some "live_100_aaaaaaaaaa"
    ∧ ((createLiveSession ⟨"lg"⟩ 2 100 [0, 0, 0, 0, 0, 0, 0, 0, 0, 0] true 0 0
        (createLiveSession ⟨"lg"⟩ 1 100 [0, 0, 0, 0, 0, 0, 0, 0, 0, 0] true 0 0
          ⟨[], 0⟩).1).2).streamKeyOf = some "live_100_aaaaaaaaaa" :=
  ⟨rfl, rfl⟩

/-- C6 (amended): the stream key is a deterministic function of the clock
readings alone (`live_<sec>_` followed by one charset character per
`UnixNano()` reading), so uniqueness is not guaranteed: Creates observing
identical readings return identical keys.  Keys are guaranteed distinct
when the readings differ visibly — with equally many nano readings, if
some reading selects a different charset character the keys differ. -/
theorem streamKey_clock_determined (sec1 sec2 : Nat) (ns1 ns2 : List Nat)
    (hlen : ns1.length = ns2.length) (i : Nat) (hi : i < ns1.length)
    (hne : charsetChar (ns1.getD i 0) ≠ charsetChar (ns2.getD i 0)) :
    generateStreamKey sec1 ns1 ≠ generateStreamKey sec2 ns2 := by
  intro heq
  have hi2 : i < ns2.length := hlen ▸ hi
  have h1 : (generateStreamKey sec1 ns1).data =
      ("live_" ++ Nat.repr sec1 ++ "_").data ++ ns1.map charsetChar := by
    show (("live_" ++ Nat.repr sec1 ++ "_") ++ generateRandomString ns1).data = _
    rw [String.data_append]
    rfl
  have h2 : (generateStreamKey sec2 ns2).data =
      ("live_" ++ Nat.repr sec2 ++ "_").data ++ ns2.map charsetChar := by
    show (("live_" ++ Nat.repr sec2 ++ "_") ++ generateRandomString ns2).data = _
    rw [String.data_append]
    rfl
  have hdata := congrArg String.data heq
  rw [h1, h2] at hdata
  have hlen2 : (ns1.map charsetChar).length = (ns2.map charsetChar).length := by
    rw [List.length_map, List.length_map, hlen]
  have htail : ns1.map charsetChar = ns2.map charsetChar :=
    (List.append_inj' hdata hlen2).2
  have hopt := congrArg (fun l => l[i]?) htail
  simp only [List.getElem?_map] at hopt
  rw [List.getElem?_eq_getElem hi, List.getElem?_eq_getElem hi2] at hopt
  simp only [Option.map_some'] at hopt
  have hchar := Option.some.inj hopt
  have hd1 : ns1.getD i 0 = ns1[i] := by
    rw [List.getD_eq_getElem?_getD, List.getElem?_eq_getElem hi]
    rfl
  have hd2 : ns2.getD i 0 = ns2[i] := by
    rw [List.getD_eq_getElem?_getD, List.getElem?_eq_getElem hi2]
    rfl
  rw [hd1, hd2] at hne
  exact hne hchar

/-- C6 witness: two key generations whose single nano reading selects
different charset characters yield distinct keys. -/
theorem streamKey_clock_determined_witness :
    generateStreamKey 0 [0] ≠ generateStreamKey 0 [1] :=
  streamKey_clock_determined 0 0 [0] [1] rfl 0 (by decide) (by decide)

/-- C8: the playback-endpoint computation is a pure function: it always
returns the three named entries `rtmp`, `flv`, `hls`; every entry is a
nonempty string containing the stream key as a substring; and equal stream
keys (under the same static configuration) give equal maps. -/
theorem getPlayURLs_pure (cfg : Config) (k : String) :
    ((getPlayURLs cfg k).map Prod.fst = ["rtmp", "flv", "hls"])
    ∧ (∀ name url, (name, url) ∈ getPlayURLs cfg k →
        url ≠ "" ∧ ∃ w1 w2, url = w1 ++ k ++ w2)
    ∧ (∀ k2, k = k2 → getPlayURLs cfg k = getPlayURLs cfg k2) := by
  refine ⟨rfl, ?_, ?_⟩
  · intro name url hmem
    simp only [getPlayURLs, List.mem_cons, List.not_mem_nil, or_false,
      Prod.mk.injEq] at hmem
    have hempty : ("" : String).length = 0 := rfl
    rcases hmem with ⟨hn, hu⟩ | ⟨hn, hu⟩ | ⟨hn, hu⟩
    · subst hu
      refine ⟨?_, "rtmp://" ++ cfg.livegoURL ++ "/live/", "",
        by rw [String.append_empty]⟩
      intro h0
      have hlen := congrArg String.length h0
      have h7 : ("rtmp://" : String).length = 7 := rfl
      simp only [String.length_append] at hlen
      omega
    · subst hu
      refine ⟨?_, "http://" ++ cfg.livegoURL ++ ":7001/live/", ".flv", rfl⟩
      intro h0
      have hlen := congrArg String.length h0
      have h7 : ("http://" : String).length = 7 := rfl
      simp only [String.length_append] at hlen
      omega
    · subst hu
      refine ⟨?_, "http://" ++ cfg.livegoURL ++ ":7002/live/", ".m3u8", rfl⟩
      intro h0
      have hlen := congrArg String.length h0
      have h7 : ("http://" : String).length = 7 := rfl
      simp only [String.length_append] at hlen
      omega
  · intro k2 hk
    rw [hk]

/-- C8 witness: on a concrete configuration and stream key, the rtmp entry
is a nonempty string. -/
theorem getPlayURLs_pure_witness :
    ("rtmp://" ++ "x" ++ "/live/" ++ "k" : String) ≠ "" :=
  ((getPlayURLs_pure ⟨"x"⟩ "k").2.1 "rtmp"
    ("rtmp://" ++ "x" ++ "/live/" ++ "k") (by decide)).1

/-- The question with options `["a,b"]` (one option containing a comma). -/
def questionWithComma : Question :=
  ⟨0, 1, "choice", "2+2?", ["a,b"], "a"⟩

/-- The question with options `["a", "b"]` (two comma-free options). -/
def questionTwoOptions : Question :=
  ⟨0, 1, "choice", "2+2?", ["a", "b"], "a"⟩

/-- C10: `createQuestion` persists the options by joining them with a
comma, which is not injective: the distinct lists `["a,b"]` and
`["a", "b"]` store identically (the whole resulting question store is
identical), so no fetch function applied to the stored string can return
the options as submitted for both. -/
theorem question_options_join_not_injective :
    serializeOptions ["a,b"] = serializeOptions ["a", "b"]
    ∧ (["a,b"] : List String) ≠ ["a", "b"]
    ∧ (∀ st : QuestionStore,
        (createQuestion questionWithComma st).1 =
          (createQuestion questionTwoOptions st).1)
    ∧ (∀ g : String → List String,
        g (serializeOptions ["a,b"]) ≠ ["a,b"] ∨
        g (serializeOptions ["a", "b"]) ≠ ["a", "b"]) := by
  refine ⟨by decide, by decide, ?_, ?_⟩
  · intro st
    show (⟨st.rows ++ [⟨st.nextId, 1, "choice", "2+2?",
        serializeOptions ["a,b"], "a"⟩], st.nextId + 1⟩ : QuestionStore) = _
    have hopts : serializeOptions ["a,b"] = serializeOptions ["a", "b"] := by
      decide
    rw [hopts]
    rfl
  · intro g
    by_cases hg : g (serializeOptions ["a,b"]) = ["a,b"]
    · right
      have hser : serializeOptions ["a", "b"] = serializeOptions ["a,b"] := by
        decide
      rw [hser, hg]
      decide
    · left
      exact hg

end Zhibo
